import Mathlib

/-!
Shallow embedding of the fleet-update logic of skot/bitaxe_updtrr
(updtrr.py and updtrr_tui.py), together with theorems settling the
specification claims about it.

HTTP transport, the filesystem and the scanner are external collaborators:
they enter the embedding as explicit outcome parameters (a status query
either yields a parsed JSON body, a non-200 code, or an exception; a POST
either yields a status code or a transport error).  Everything the program
computes from those outcomes is embedded as executable Lean functions,
translated from the Python source.
-/

namespace Updtrr

/-- Python str.upper, applied per character (all strings this program
normalizes are ASCII model identifiers). -/
def pyUpper (s : String) : String := ⟨s.data.map Char.toUpper⟩

/-- The character class matched by the byte-regex whitespace class and
stripped by Python str.strip. -/
def isPySpace (c : Char) : Bool :=
  c = ' ' || c = '\t' || c = '\n' || c = '\r' || c = '\x0b' || c = '\x0c'

/-- Python str.strip: remove leading and trailing whitespace. -/
def pyStrip (s : String) : String :=
  ⟨((s.data.dropWhile isPySpace).reverse.dropWhile isPySpace).reverse⟩

/-- A parsed JSON object body, modelled as an association list from field
name to field value (only presence, and the string value of the version
and asicModel fields, are ever inspected by the program). -/
abbrev Info := List (String × String)

/-- Python membership / dict.get: the value of field k, when present. -/
def lookupField (info : Info) (k : String) : Option String :=
  (info.find? (fun p => p.1 == k)).map (fun p => p.2)

/-- Python `k in info`. -/
def hasField (info : Info) (k : String) : Bool := (lookupField info k).isSome

/-- Outcome of a GET to /api/system/info as seen by the program. -/
inductive StatusQuery where
  | ok (info : Info)
  | httpError (code : Nat)
  | failed
deriving DecidableEq

/-- The six Bitaxe indicator fields of verify_bitaxe_device
(updtrr.py lines 619-626). -/
def bitaxe_indicators : List String :=
  ["version", "asicModel", "boardVersion", "chipTemp", "hashRate", "power"]

/-- The fixed whitelist of known ASIC models (updtrr.py line 634). -/
def known_asics : List String := ["BM1366", "BM1368", "BM1370", "BM1397"]

/-- Count of indicator fields present in the response body
(updtrr.py line 629). -/
def found_indicators (info : Info) : Nat :=
  (bitaxe_indicators.filter (fun f => hasField info f)).length

/-- Case-normalized hardware model: info.get with default empty then upper
(updtrr.py line 633). -/
def asic_model (info : Info) : String :=
  pyUpper ((lookupField info "asicModel").getD "")

/-- BitaxeUpdater.verify_bitaxe_device (updtrr.py lines 598-651), as a
function of the status-query outcome.  A non-200 response, a transport
error and an unparseable body all return false. -/
def verify_bitaxe_device (q : StatusQuery) : Bool :=
  match q with
  | .ok info =>
      let found := found_indicators info
      if 3 ≤ found then
        if known_asics.contains (asic_model info) then true
        else if 4 ≤ found then true
        else false
      else false
  | .httpError _ => false
  | .failed => false

/-- Numeric value of a decimal digit character (int() on a digit). -/
def digitVal (c : Char) : Nat := c.toNat - 48

/-- Python int() applied to a run of decimal digit characters. -/
def runVal (cs : List Char) : Nat := cs.foldl (fun n c => n * 10 + digitVal c) 0

/-- Helper for digitRuns: acc holds the reversed digits of the run in
progress. -/
def digitRunsAux : List Char → List Char → List (List Char)
  | [], acc => if acc.isEmpty then [] else [acc.reverse]
  | c :: cs, acc =>
      if c.isDigit then digitRunsAux cs (c :: acc)
      else if acc.isEmpty then digitRunsAux cs []
      else acc.reverse :: digitRunsAux cs []

/-- The maximal runs of decimal digits of a character list, in order: the
byte-level semantics of re.findall with the digit-run pattern used by
parse_version (updtrr.py line 436). -/
def digitRuns (cs : List Char) : List (List Char) := digitRunsAux cs []

/-- The substitution re.sub removing a single leading lowercase letter v
(updtrr.py line 435; the pattern is anchored and not case-insensitive). -/
def stripLeadingV (s : String) : String :=
  match s.data with
  | c :: rest => if c = 'v' then ⟨rest⟩ else s
  | [] => s

/-- parse_version, the inner helper of BitaxeUpdater.compare_versions
(updtrr.py lines 432-445): strip, drop one leading v, extract all maximal
digit runs, pad missing trailing components with 0. -/
def parse_version (s : String) : Nat × Nat × Nat :=
  let clean := stripLeadingV (pyStrip s)
  let parts := (digitRuns clean.data).map runVal
  match parts with
  | a :: b :: c :: _ => (a, b, c)
  | [a, b] => (a, b, 0)
  | [a] => (a, 0, 0)
  | [] => (0, 0, 0)

/-- Python tuple comparison x > y on integer triples (lexicographic). -/
def versionGt (x y : Nat × Nat × Nat) : Bool :=
  if x.1 = y.1 then
    if x.2.1 = y.2.1 then decide (y.2.2 < x.2.2)
    else decide (y.2.1 < x.2.1)
  else decide (y.1 < x.1)

/-- BitaxeUpdater.compare_versions (updtrr.py lines 421-459): true when
the binary version is strictly newer than the current device version.
The Python try/except cannot fire: parse_version is total. -/
def compare_versions (current_version binary_version : String) : Bool :=
  versionGt (parse_version binary_version) (parse_version current_version)

/-!
Regex machinery for extract_version_from_binary (updtrr.py lines 382-419).
The binary content is a byte string, modelled as a list of characters.
Each of the five source patterns is embedded as a matcher that either
matches at the head of the list (returning the captured triple substring)
or fails; a leftmost search then models re.findall taking matches[0].
All quantifiers in the source patterns are greedy over character classes
that are disjoint from what follows them, so matching at a fixed start
position is deterministic: a greedy digit-plus followed by a literal dot
matches exactly the maximal digit run.
-/

/-- Greedy match of the triple digits-dot-digits-dot-digits at the head of
the list, returning the matched (captured) characters. -/
def matchTripleAt (cs : List Char) : Option (List Char) :=
  let d1 := cs.takeWhile Char.isDigit
  let r1 := cs.dropWhile Char.isDigit
  if d1.isEmpty then none else
  match r1 with
  | '.' :: r2 =>
      let d2 := r2.takeWhile Char.isDigit
      let r3 := r2.dropWhile Char.isDigit
      if d2.isEmpty then none else
      match r3 with
      | '.' :: r4 =>
          let d3 := r4.takeWhile Char.isDigit
          if d3.isEmpty then none
          else some (d1 ++ '.' :: (d2 ++ '.' :: d3))
      | _ => none
  | _ => none

/-- Case-insensitive match of a literal (the IGNORECASE flag of the
source), returning the rest of the input on success. -/
def matchLitCI : List Char → List Char → Option (List Char)
  | [], cs => some cs
  | _ :: _, [] => none
  | l :: ls, c :: cs => if c.toLower = l.toLower then matchLitCI ls cs else none

/-- Greedy skip of the class colon-or-whitespace. -/
def skipColonSpace (cs : List Char) : List Char :=
  cs.dropWhile (fun c => c = ':' || isPySpace c)

/-- Greedy match of an optional letter v (case-insensitive), followed by
the digit triple. -/
def matchOptVTripleAt (cs : List Char) : Option (List Char) :=
  match cs with
  | c :: rest => if c = 'v' || c = 'V' then matchTripleAt rest else matchTripleAt cs
  | [] => none

/-- Pattern 1 of the source: letter v then captured triple
(case-insensitive). -/
def matchP1At (cs : List Char) : Option (List Char) :=
  match cs with
  | c :: rest => if c = 'v' || c = 'V' then matchTripleAt rest else none
  | [] => none

/-- Pattern 2: the literal version, optional colons and whitespace, then
the captured triple. -/
def matchP2At (cs : List Char) : Option (List Char) :=
  match matchLitCI "version".data cs with
  | some rest => matchTripleAt (skipColonSpace rest)
  | none => none

/-- Pattern 3: the literal ESP-Miner, optional colons and whitespace, an
optional v, then the captured triple. -/
def matchP3At (cs : List Char) : Option (List Char) :=
  match matchLitCI "ESP-Miner".data cs with
  | some rest => matchOptVTripleAt (skipColonSpace rest)
  | none => none

/-- Pattern 4: the literal FW, optional colons and whitespace, an optional
v, then the captured triple. -/
def matchP4At (cs : List Char) : Option (List Char) :=
  match matchLitCI "FW".data cs with
  | some rest => matchOptVTripleAt (skipColonSpace rest)
  | none => none

/-- Pattern 5: the bare captured triple. -/
def matchP5At (cs : List Char) : Option (List Char) := matchTripleAt cs

/-- Leftmost search: try the matcher at every start position from left to
right (the scan re.findall performs; matches[0] is the leftmost match).
None of the five patterns can match the empty suffix, so positions beyond
the last character need not be tried. -/
def searchFrom (m : List Char → Option (List Char)) : List Char → Option (List Char)
  | [] => none
  | c :: cs =>
      match m (c :: cs) with
      | some r => some r
      | none => searchFrom m cs

/-- The five version patterns of updtrr.py lines 398-404, in source
order. -/
def version_patterns : List (List Char → Option (List Char)) :=
  [matchP1At, matchP2At, matchP3At, matchP4At, matchP5At]

/-- BitaxeUpdater.extract_version_from_binary (updtrr.py lines 382-419)
as a function of the binary content: the first pattern with any match
wins, and its leftmost match (decoded, which is the identity on the
digits-and-dots capture) is returned. -/
def extract_version_from_binary (data : List Char) : Option String :=
  (version_patterns.findSome? (fun p => searchFrom p data)).map (fun cs => ⟨cs⟩)

/-- The version dictionary built by get_device_version. -/
structure VersionInfo where
  version : String
  axeOSVersion : String
deriving DecidableEq

/-- BitaxeUpdater.get_device_version (updtrr.py lines 352-380): on HTTP
200 with a parseable body, a dictionary with the two version fields
(absent fields default to the literal unknown); on a non-200 response or
a transport failure, none. -/
def get_device_version (q : StatusQuery) : Option VersionInfo :=
  match q with
  | .ok info =>
      some ⟨(lookupField info "version").getD "unknown",
            (lookupField info "axeOSVersion").getD "unknown"⟩
  | .httpError _ => none
  | .failed => none

/-- BitaxeUpdater.check_if_update_needed (updtrr.py lines 461-492).
The Python falsiness tests coincide with the Option tests here: the
dictionary returned by get_device_version is never empty, and an
extracted version string is never empty. -/
def check_if_update_needed (q : StatusQuery) (binary : List Char) : Bool × String :=
  match get_device_version q with
  | none => (true, "Unable to get device version - proceeding with update")
  | some device_info =>
      let current_version := device_info.version
      match extract_version_from_binary binary with
      | none =>
          (true, "Unable to extract binary version - proceeding with update (current: "
                 ++ current_version ++ ")")
      | some binary_version =>
          let update_needed := compare_versions current_version binary_version
          if update_needed then
            (update_needed, "Update needed: " ++ current_version ++ " -> " ++ binary_version)
          else
            (update_needed, "Already up to date: " ++ current_version
                            ++ " (binary: " ++ binary_version ++ ")")

/-- Outcome of an HTTP POST of a binary payload. -/
inductive PostOutcome where
  | response (code : Nat)
  | timeout
  | connectionError
  | exn
deriving DecidableEq

/-- Success criterion of upload_firmware and upload_web_interface
(updtrr.py lines 202-220 and 245-263): HTTP 200 succeeds; 401, any other
code, timeouts, connection errors and other exceptions fail. -/
def postSuccess : PostOutcome → Bool
  | .response 200 => true
  | _ => false

/-- The update actions observable from outside a device update: status
writes and the two upload POSTs. -/
inductive DeviceStatus where
  | PENDING | CHECKING_VERSION | UP_TO_DATE
  | WWW_UPLOADING | WWW_SUCCESS | WWW_FAILED
  | FW_UPLOADING | FW_SUCCESS | FW_FAILED
  | COMPLETED | FAILED
deriving DecidableEq

inductive Action where
  | setStatus (s : DeviceStatus)
  | postWWW
  | postFW
deriving DecidableEq

/-- BitaxeUpdater.update_device of the CLI (updtrr.py lines 265-305):
result pair (www_success, firmware_success) plus the list of upload POSTs
issued.  When force is off and the version check reports no update
needed, it returns (true, true) immediately and issues no POST; otherwise
both uploads are always attempted, web interface first. -/
def cli_update_device (force : Bool) (q : StatusQuery) (binary : List Char)
    (wwwPost fwPost : PostOutcome) : (Bool × Bool) × List Action :=
  if !force && !(check_if_update_needed q binary).1 then
    ((true, true), [])
  else
    let www_success := postSuccess wwwPost
    let firmware_success := postSuccess fwPost
    ((www_success, firmware_success), [Action.postWWW, Action.postFW])

/-- The results dictionary of BitaxeUpdater.update_all_devices
(updtrr.py lines 322-329). -/
structure RunResults where
  total : Nat
  firmware_success : Nat
  www_success : Nat
  both_success : Nat
  failed : List String
  up_to_date : Nat
deriving DecidableEq

/-- One iteration of the accounting loop of update_all_devices
(updtrr.py lines 336-343), applied to the (www, fw) result pair of a
device. -/
def record_device_result (res : RunResults) (ip : String) (r : Bool × Bool) : RunResults :=
  { res with
    firmware_success := res.firmware_success + (if r.2 then 1 else 0),
    www_success := res.www_success + (if r.1 then 1 else 0),
    both_success := res.both_success + (if r.2 && r.1 then 1 else 0),
    failed := if !r.2 && !r.1 then res.failed ++ [ip] else res.failed }

/-- The per-device external environment of a run: the status-query
outcome used by the version check and the outcomes of the two POSTs. -/
structure DeviceEnv where
  query : StatusQuery
  wwwPost : PostOutcome
  fwPost : PostOutcome

/-- BitaxeUpdater.update_all_devices (updtrr.py lines 307-350) as a fold
of record_device_result over the device list. -/
def update_all_devices (force : Bool) (env : String → DeviceEnv) (binary : List Char)
    (ip_addresses : List String) : RunResults :=
  ip_addresses.foldl
    (fun res ip =>
      record_device_result res ip
        (cli_update_device force (env ip).query binary (env ip).wwwPost (env ip).fwPost).1)
    { total := ip_addresses.length, firmware_success := 0, www_success := 0,
      both_success := 0, failed := [], up_to_date := 0 }

/-- The exit code chosen by main (updtrr.py lines 802-811): 0 when every
device had both uploads succeed, 1 otherwise. -/
def main_exit_code (res : RunResults) : Nat :=
  if res.both_success = res.total then 0
  else if 0 < res.both_success then 1
  else 1

/-- The up-to-date count printed in the final summary
(updtrr.py line 796: results.get of the up_to_date key, default 0). -/
def summary_up_to_date (res : RunResults) : Nat := res.up_to_date

/-!
TUI side (updtrr_tui.py).  The shared is_running flag is written by the
renderer thread and read by the worker at fixed program points; it is
modelled as a schedule giving the value observed at each read.
-/

/-- External environment of one TUI upload stage: the is_running value
observed at each of the 20 checks of the progress loop, and the POST
outcome. -/
structure UploadEnv where
  running : Nat → Bool
  post : PostOutcome

/-- The progress loop of BitaxeUpdaterTUI.upload_with_progress
(updtrr_tui.py lines 278-296): is_running is checked at the top of each
of the 20 iterations; a false reading aborts the stage with a failure
result before the POST is issued.  Returns (post issued, success). -/
def uploadLoop (env : UploadEnv) : List Nat → Bool × Bool
  | [] => (true, postSuccess env.post)
  | i :: rest => if env.running i then uploadLoop env rest else (false, false)

/-- BitaxeUpdaterTUI.upload_with_progress (updtrr_tui.py lines 247-315):
20 progress steps each guarded by the cancellation check, then the actual
POST.  First component: whether the POST was issued; second: the return
value. -/
def upload_with_progress (env : UploadEnv) : Bool × Bool :=
  uploadLoop env (List.range 20)

/-- Outcome of one BitaxeUpdaterTUI.update_device call: the observable
action trace, the final status written for the device, the returned pair
(www_success, firmware_success) and the statistics increments. -/
structure TuiOutcome where
  trace : List Action
  status : DeviceStatus
  ret : Bool × Bool
  completedDelta : Nat
  wwwSuccessDelta : Nat
  fwSuccessDelta : Nat
  failedDelta : Nat
deriving DecidableEq

/-- BitaxeUpdaterTUI.update_device (updtrr_tui.py lines 351-393).
When force is off, the device enters CHECKING_VERSION; a version check
reporting no update needed makes it terminal at UP_TO_DATE with result
(true, true) and completed incremented, and no upload stage runs.
Otherwise the WWW stage then the FW stage run (upload_www lines 317-332,
upload_firmware lines 334-349), each setting its uploading status, its
success or failure status, and bumping its success counter; the device
ends COMPLETED (completed incremented) when both stages succeeded, else
FAILED (failed incremented). -/
def tui_update_device (force : Bool) (q : StatusQuery) (binary : List Char)
    (wwwEnv fwEnv : UploadEnv) : TuiOutcome :=
  let checkTrace := if force then [] else [Action.setStatus DeviceStatus.CHECKING_VERSION]
  if !force && !(check_if_update_needed q binary).1 then
    { trace := checkTrace ++ [Action.setStatus DeviceStatus.UP_TO_DATE],
      status := DeviceStatus.UP_TO_DATE, ret := (true, true),
      completedDelta := 1, wwwSuccessDelta := 0, fwSuccessDelta := 0, failedDelta := 0 }
  else
    let w := upload_with_progress wwwEnv
    let f := upload_with_progress fwEnv
    let wwwTrace := Action.setStatus DeviceStatus.WWW_UPLOADING
      :: (if w.1 then [Action.postWWW] else [])
      ++ [Action.setStatus (if w.2 then DeviceStatus.WWW_SUCCESS else DeviceStatus.WWW_FAILED)]
    let fwTrace := Action.setStatus DeviceStatus.FW_UPLOADING
      :: (if f.1 then [Action.postFW] else [])
      ++ [Action.setStatus (if f.2 then DeviceStatus.FW_SUCCESS else DeviceStatus.FW_FAILED)]
    let final := if w.2 && f.2 then DeviceStatus.COMPLETED else DeviceStatus.FAILED
    { trace := checkTrace ++ wwwTrace ++ fwTrace ++ [Action.setStatus final],
      status := final, ret := (w.2, f.2),
      completedDelta := if w.2 && f.2 then 1 else 0,
      wwwSuccessDelta := if w.2 then 1 else 0,
      fwSuccessDelta := if f.2 then 1 else 0,
      failedDelta := if w.2 && f.2 then 0 else 1 }

/-- The devices actually started by BitaxeUpdaterTUI.update_worker
(updtrr_tui.py lines 395-418): the loop checks is_running at the top of
each iteration and breaks on a false reading, so the started devices are
the longest prefix whose top-of-loop checks all read true.  The flag
schedule gives the value observed at the check for the i-th device. -/
def update_worker_started (flag : Nat → Bool) : Nat → List String → List String
  | _, [] => []
  | i, ip :: rest =>
      if flag i then ip :: update_worker_started flag (i + 1) rest else []

/-- The decimal digit characters, indexed by value (only applied to
values below ten). -/
def digitChar : Nat → Char
  | 0 => '0'
  | 1 => '1'
  | 2 => '2'
  | 3 => '3'
  | 4 => '4'
  | 5 => '5'
  | 6 => '6'
  | 7 => '7'
  | 8 => '8'
  | _ => '9'

/-- Decimal digit characters of n, most significant first: the characters
the Python formatting of a non-negative integer produces. -/
def natDigits (n : Nat) : List Char :=
  if h : n < 10 then [digitChar n]
  else natDigits (n / 10) ++ [digitChar (n % 10)]
termination_by n
decreasing_by exact Nat.div_lt_self (by omega) (by omega)

/-- The string v followed by a dotted decimal triple. -/
def verStringV (a b c : Nat) : String :=
  ⟨'v' :: (natDigits a ++ '.' :: (natDigits b ++ '.' :: natDigits c))⟩

/-- A bare dotted decimal triple string. -/
def verStringPlain (a b c : Nat) : String :=
  ⟨natDigits a ++ '.' :: (natDigits b ++ '.' :: natDigits c)⟩

/-- A dotted decimal pair string (a version with a missing patch
component). -/
def verStringTwo (a b : Nat) : String :=
  ⟨natDigits a ++ '.' :: natDigits b⟩

/-- Strict lexicographic order on version triples, stated as a
proposition independent of the program text. -/
def TripleLex (x y : Nat × Nat × Nat) : Prop :=
  x.1 < y.1 ∨ (x.1 = y.1 ∧ (x.2.1 < y.2.1 ∨ (x.2.1 = y.2.1 ∧ x.2.2 < y.2.2)))

/-- An upload-stage environment in which the cancellation flag is set
after the tenth progress check: the flag reads true at checks 0 through 9
and false from check 10 on, while the POST would succeed if issued. -/
def cancelMidEnv : UploadEnv :=
  { running := fun i => decide (i < 10), post := PostOutcome.response 200 }

/-- A device environment in which the device already reports the version
2.9.0 carried by the binary used alongside it, so its version check
decides no update is needed. -/
def upToDateEnv : DeviceEnv :=
  { query := StatusQuery.ok [("version", "2.9.0")],
    wwwPost := PostOutcome.timeout, fwPost := PostOutcome.timeout }

/-!
Theorems.
-/

/-- C1 counterexample: a response whose body carries only the asicModel
field with the whitelisted value BM1366 (so the case-normalized model
matches the whitelist and the model field is the only indicator present)
is rejected by verify_bitaxe_device, contradicting the claim that a
whitelisted model verifies unconditionally. -/
theorem C1_counterexample :
    known_asics.contains (asic_model [("asicModel", "BM1366")]) = true ∧
    found_indicators [("asicModel", "BM1366")] = 1 ∧
    verify_bitaxe_device (StatusQuery.ok [("asicModel", "BM1366")]) = false := by
  refine ⟨by decide, by decide, by decide⟩

/-- C1 (amended): for a status query that succeeds, a case-normalized
model matching the whitelist makes verify_bitaxe_device return true
provided at least 3 of the six indicator fields are present; with fewer
than 3 indicators present the device is rejected no matter the model. -/
theorem C1_whitelisted_model_verifies (info : Info)
    (h3 : 3 ≤ found_indicators info)
    (hm : known_asics.contains (asic_model info) = true) :
    verify_bitaxe_device (StatusQuery.ok info) = true := by
  simp only [verify_bitaxe_device]
  rw [if_pos h3, if_pos hm]

/-- C1 witness: a concrete body with the whitelisted model and two more
indicator fields is verified. -/
theorem C1_witness :
    verify_bitaxe_device
      (StatusQuery.ok [("asicModel", "bm1366"), ("version", "2.9.0"), ("power", "12")]) = true :=
  C1_whitelisted_model_verifies
    [("asicModel", "bm1366"), ("version", "2.9.0"), ("power", "12")]
    (by decide) (by decide)

/-- C2 counterexample: a successful status query with exactly 3 indicator
fields present and a hardware model not on the whitelist is rejected by
verify_bitaxe_device, contradicting the claim that an indicator count of
exactly 3 verifies such a response. -/
theorem C2_counterexample :
    found_indicators [("asicModel", "FOO"), ("version", "2.9.0"), ("power", "12")] = 3 ∧
    known_asics.contains
      (asic_model [("asicModel", "FOO"), ("version", "2.9.0"), ("power", "12")]) = false ∧
    verify_bitaxe_device
      (StatusQuery.ok [("asicModel", "FOO"), ("version", "2.9.0"), ("power", "12")]) = false := by
  refine ⟨by decide, by decide, by decide⟩

/-- C2 (amended): for a successful status query whose case-normalized
hardware model does not match the whitelist, verify_bitaxe_device returns
true exactly when at least 4 of the six indicator fields are present; in
particular an indicator count of exactly 3, and any count below 3, is
rejected. -/
theorem C2_nonwhitelisted_needs_four (info : Info)
    (hm : known_asics.contains (asic_model info) = false) :
    verify_bitaxe_device (StatusQuery.ok info) = true ↔ 4 ≤ found_indicators info := by
  simp only [verify_bitaxe_device, hm]
  by_cases h3 : 3 ≤ found_indicators info <;>
    by_cases h4 : 4 ≤ found_indicators info <;>
      simp [h3, h4] <;> omega

/-- C2 witness: a concrete body with 4 indicator fields and an
unrecognized model is verified. -/
theorem C2_witness :
    verify_bitaxe_device
      (StatusQuery.ok [("asicModel", "FOO"), ("version", "2.9.0"),
                       ("power", "12"), ("hashRate", "500")]) = true :=
  (C2_nonwhitelisted_needs_four
    [("asicModel", "FOO"), ("version", "2.9.0"), ("power", "12"), ("hashRate", "500")]
    (by decide)).mpr (by decide)

/-- Helper: the Boolean Python tuple comparison agrees with the strict
lexicographic order. -/
theorem versionGt_iff (x y : Nat × Nat × Nat) : versionGt x y = true ↔ TripleLex y x := by
  obtain ⟨a1, b1, c1⟩ := x
  obtain ⟨a2, b2, c2⟩ := y
  simp only [versionGt, TripleLex]
  split_ifs <;> simp_all <;> omega

/-- C5: compare_versions returns true exactly when the parsed binary
version triple is strictly greater than the parsed device version triple
in lexicographic order; an equal parsed version yields false (no
update). -/
theorem C5_compare_versions_lex (cur bin : String) :
    (compare_versions cur bin = true ↔ TripleLex (parse_version cur) (parse_version bin)) ∧
    (parse_version bin = parse_version cur → compare_versions cur bin = false) := by
  constructor
  · exact versionGt_iff (parse_version bin) (parse_version cur)
  · intro h
    simp [compare_versions, h, versionGt]

/-- C5 witness: the same version in the two accepted formats requires no
update. -/
theorem C5_witness : compare_versions "2.9.0" "v2.9.0" = false :=
  (C5_compare_versions_lex "2.9.0" "v2.9.0").2 (by decide)

/-- C6: check_if_update_needed reports that an update is needed whenever
the device version cannot be fetched (any non-ok status query outcome:
transport failure or non-200 response) or no version can be extracted
from the binary image, for every device outcome and binary content. -/
theorem C6_fail_open (q : StatusQuery) (binary : List Char)
    (h : (∀ info, q ≠ StatusQuery.ok info) ∨ extract_version_from_binary binary = none) :
    (check_if_update_needed q binary).1 = true := by
  rcases h with h | h
  · have hq : get_device_version q = none := by
      cases q with
      | ok info => exact absurd rfl (h info)
      | httpError code => rfl
      | failed => rfl
    simp [check_if_update_needed, hq]
  · cases hq : get_device_version q with
    | none => simp [check_if_update_needed, hq]
    | some di => simp [check_if_update_needed, hq, h]

/-- C6 witness: a transport failure on the status query forces an update
decision even for an empty binary. -/
theorem C6_witness : (check_if_update_needed StatusQuery.failed []).1 = true :=
  C6_fail_open StatusQuery.failed [] (Or.inl (fun info h => by cases h))

/-- Helper: the progress loop runs the POST exactly when every check in
its index list reads true, and otherwise aborts with the failure pair. -/
theorem uploadLoop_eq (env : UploadEnv) (l : List Nat) :
    uploadLoop env l =
      if l.all env.running then (true, postSuccess env.post) else (false, false) := by
  induction l with
  | nil => rfl
  | cons i rest ih =>
      by_cases hi : env.running i = true
      · simp [uploadLoop, hi, ih]
      · simp [uploadLoop, hi]

/-- Helper: devices started by the worker loop when the flag never goes
false. -/
theorem update_worker_started_all (flag : Nat → Bool) (hf : ∀ j, flag j = true) :
    ∀ ips i, update_worker_started flag i ips = ips := by
  intro ips
  induction ips with
  | nil => intro i; rfl
  | cons ip rest ih =>
      intro i
      simp [update_worker_started, hf i, ih (i + 1)]

/-- C3 (amended): the TUI upload stage issues its HTTP POST exactly when
the cancellation flag reads true at every one of the 20 progress
checkpoints preceding the POST; if any checkpoint sees the flag cleared,
the stage aborts before the POST and records failure.  The worker loop
starts no device whose top-of-loop check sees the flag cleared, and
starts every device when the flag is never cleared. -/
theorem C3_cancellation (env : UploadEnv) (flag : Nat → Bool) (i : Nat) (ips : List String) :
    ((upload_with_progress env).1 = true ↔ ∀ j < 20, env.running j = true) ∧
    ((∃ j, j < 20 ∧ env.running j = false) → upload_with_progress env = (false, false)) ∧
    (flag i = false → update_worker_started flag i ips = []) ∧
    ((∀ j, flag j = true) → update_worker_started flag i ips = ips) := by
  have hmain : upload_with_progress env =
      if (List.range 20).all env.running then (true, postSuccess env.post)
      else (false, false) := uploadLoop_eq env (List.range 20)
  have hall : (List.range 20).all env.running = true ↔ ∀ j < 20, env.running j = true := by
    simp [List.all_eq_true, List.mem_range]
  refine ⟨?_, ?_, ?_, ?_⟩
  · constructor
    · intro h
      by_cases hc : (List.range 20).all env.running = true
      · exact hall.mp hc
      · rw [hmain, if_neg hc] at h
        cases h
    · intro h
      rw [hmain, if_pos (hall.mpr h)]
  · rintro ⟨j, hj, hfalse⟩
    have hc : ¬ (List.range 20).all env.running = true := by
      intro hc
      rw [hall.mp hc j hj] at hfalse
      cases hfalse
    rw [hmain, if_neg hc]
  · intro hflag
    cases ips with
    | nil => rfl
    | cons ip rest => simp [update_worker_started, hflag]
  · intro hf
    exact update_worker_started_all flag hf ips i

/-- C3 witness: with the flag cleared after the tenth checkpoint the
stage aborts without the POST, and a worker seeing a cleared flag starts
no device. -/
theorem C3_witness :
    upload_with_progress cancelMidEnv = (false, false) ∧
    update_worker_started (fun _ => false) 0 ["10.0.0.1"] = [] :=
  ⟨(C3_cancellation cancelMidEnv (fun _ => false) 0 ["10.0.0.1"]).2.1
      ⟨10, by decide, by decide⟩,
   (C3_cancellation cancelMidEnv (fun _ => false) 0 ["10.0.0.1"]).2.2.1 rfl⟩

/-- C3 counterexample: the cancellation flag is set while the upload
stage is in flight (it reads true at the first checkpoint and false from
the tenth on), yet the stage does not run to completion: the POST is
never issued and the stage reports failure, contradicting the claim that
an in-flight stage always completes and its POST is still issued. -/
theorem C3_counterexample :
    cancelMidEnv.running 0 = true ∧ cancelMidEnv.running 10 = false ∧
    upload_with_progress cancelMidEnv = (false, false) := by
  refine ⟨by decide, by decide, by decide⟩

/-- Helper: one accounting step never touches the up_to_date counter. -/
theorem record_device_result_up_to_date (res : RunResults) (ip : String) (r : Bool × Bool) :
    (record_device_result res ip r).up_to_date = res.up_to_date := rfl

/-- Helper: the accounting fold of update_all_devices never touches the
up_to_date counter. -/
theorem foldl_record_up_to_date (step : RunResults → String → RunResults)
    (hstep : ∀ res ip, (step res ip).up_to_date = res.up_to_date) :
    ∀ (ips : List String) (res : RunResults),
      (ips.foldl step res).up_to_date = res.up_to_date := by
  intro ips
  induction ips with
  | nil => intro res; rfl
  | cons ip rest ih =>
      intro res
      rw [List.foldl_cons, ih (step res ip), hstep res ip]

/-- C4: the up-to-date count printed in the final summary is the
up_to_date entry of the results dictionary, which update_all_devices
initializes to 0 and never increments; the summary therefore reports 0
for every run, and in particular for a run whose single device is
skipped as already up to date (its version check decides no update is
needed and update_device issues no upload), where the claim requires 1.
The claim matches the evident intent of the results dictionary and of
the summary label, so the code, not the claim, is at fault. -/
theorem C4_up_to_date_counter_dead :
    (∀ (force : Bool) (env : String → DeviceEnv) (binary : List Char) (ips : List String),
        summary_up_to_date (update_all_devices force env binary ips) = 0) ∧
    ((check_if_update_needed (StatusQuery.ok [("version", "2.9.0")]) ("v2.9.0".data)).1
        = false ∧
     (cli_update_device false (StatusQuery.ok [("version", "2.9.0")]) ("v2.9.0".data)
        PostOutcome.timeout PostOutcome.timeout).2 = [] ∧
     summary_up_to_date
       (update_all_devices false
         (fun _ => ⟨StatusQuery.ok [("version", "2.9.0")],
                    PostOutcome.timeout, PostOutcome.timeout⟩)
         ("v2.9.0".data) ["10.0.0.1"]) = 0) := by
  constructor
  · intro force env binary ips
    exact foldl_record_up_to_date _ (fun res ip => record_device_result_up_to_date res ip _)
      ips _
  · refine ⟨by decide, by decide, by decide⟩

/-- C8: a device whose version check (force off) decides no update is
needed ends in the terminal status UP_TO_DATE and neither the web
interface POST nor the firmware POST appears in its action trace, in the
TUI updater; the CLI updater likewise issues no upload action for it. -/
theorem C8_up_to_date_skips_uploads (q : StatusQuery) (binary : List Char)
    (wwwEnv fwEnv : UploadEnv) (wp fp : PostOutcome)
    (h : (check_if_update_needed q binary).1 = false) :
    (tui_update_device false q binary wwwEnv fwEnv).status = DeviceStatus.UP_TO_DATE ∧
    Action.postWWW ∉ (tui_update_device false q binary wwwEnv fwEnv).trace ∧
    Action.postFW ∉ (tui_update_device false q binary wwwEnv fwEnv).trace ∧
    (cli_update_device false q binary wp fp).2 = [] := by
  refine ⟨?_, ?_, ?_, ?_⟩ <;> simp [tui_update_device, cli_update_device, h]

/-- C8 witness: a device already at the binary version is skipped with
status UP_TO_DATE and an upload-free trace. -/
theorem C8_witness :
    (tui_update_device false (StatusQuery.ok [("version", "2.9.0")]) ("v2.9.0".data)
        cancelMidEnv cancelMidEnv).status = DeviceStatus.UP_TO_DATE ∧
    Action.postWWW ∉ (tui_update_device false (StatusQuery.ok [("version", "2.9.0")])
        ("v2.9.0".data) cancelMidEnv cancelMidEnv).trace ∧
    Action.postFW ∉ (tui_update_device false (StatusQuery.ok [("version", "2.9.0")])
        ("v2.9.0".data) cancelMidEnv cancelMidEnv).trace ∧
    (cli_update_device false (StatusQuery.ok [("version", "2.9.0")]) ("v2.9.0".data)
        PostOutcome.timeout PostOutcome.timeout).2 = [] :=
  C8_up_to_date_skips_uploads (StatusQuery.ok [("version", "2.9.0")]) ("v2.9.0".data)
    cancelMidEnv cancelMidEnv PostOutcome.timeout PostOutcome.timeout (by decide)

/-- Helper: over a fleet in which every version check decides no update
is needed, the accounting fold adds the device count to each of the three
success counters and leaves the other fields alone. -/
theorem foldl_record_all_up_to_date (env : String → DeviceEnv) (binary : List Char) :
    ∀ (ips : List String) (res : RunResults),
      (∀ ip ∈ ips, (check_if_update_needed (env ip).query binary).1 = false) →
      ips.foldl
        (fun res ip =>
          record_device_result res ip
            (cli_update_device false (env ip).query binary
              (env ip).wwwPost (env ip).fwPost).1) res =
      { res with firmware_success := res.firmware_success + ips.length,
                 www_success := res.www_success + ips.length,
                 both_success := res.both_success + ips.length } := by
  intro ips
  induction ips with
  | nil => intro res _; simp
  | cons ip rest ih =>
      intro res h
      have hdev : (cli_update_device false (env ip).query binary
          (env ip).wwwPost (env ip).fwPost).1 = (true, true) := by
        simp [cli_update_device, h ip (by simp)]
      obtain ⟨t, fs, ws, bs, fl, ut⟩ := res
      rw [List.foldl_cons, ih _ (fun x hx => h x (by simp [hx]))]
      simp [record_device_result, hdev, RunResults.mk.injEq]
      omega

/-- C10: a device whose version check decides no update is needed yields
the result pair (true, true) from update_device, exactly as a device
whose two uploads succeeded; the accounting step of update_all_devices
counts such a pair in the www-success, firmware-success and both-success
counters and does not add the device to the failed list; the TUI
update_device returns the same pair, increments its completed counter
and not its failed counter; and a fleet in which every device is up to
date ends with both-success equal to total, an empty failed list, and
exit status 0. -/
theorem C10_up_to_date_counted_as_success :
    (∀ (q : StatusQuery) (binary : List Char) (wp fp : PostOutcome),
        (check_if_update_needed q binary).1 = false →
        cli_update_device false q binary wp fp = ((true, true), [])) ∧
    (∀ (res : RunResults) (ip : String),
        record_device_result res ip (true, true) =
          { res with firmware_success := res.firmware_success + 1,
                     www_success := res.www_success + 1,
                     both_success := res.both_success + 1 }) ∧
    (∀ (q : StatusQuery) (binary : List Char) (wwwEnv fwEnv : UploadEnv),
        (check_if_update_needed q binary).1 = false →
        (tui_update_device false q binary wwwEnv fwEnv).ret = (true, true) ∧
        (tui_update_device false q binary wwwEnv fwEnv).completedDelta = 1 ∧
        (tui_update_device false q binary wwwEnv fwEnv).failedDelta = 0) ∧
    (∀ (env : String → DeviceEnv) (binary : List Char) (ips : List String),
        (∀ ip ∈ ips, (check_if_update_needed (env ip).query binary).1 = false) →
        (update_all_devices false env binary ips).both_success
            = (update_all_devices false env binary ips).total ∧
        (update_all_devices false env binary ips).failed = [] ∧
        main_exit_code (update_all_devices false env binary ips) = 0) := by
  refine ⟨?_, ?_, ?_, ?_⟩
  · intro q binary wp fp h
    simp [cli_update_device, h]
  · intro res ip
    obtain ⟨t, fs, ws, bs, fl, ut⟩ := res
    simp [record_device_result]
  · intro q binary wwwEnv fwEnv h
    refine ⟨?_, ?_, ?_⟩ <;> simp [tui_update_device, h]
  · intro env binary ips h
    have hfold := foldl_record_all_up_to_date env binary ips
      { total := ips.length, firmware_success := 0, www_success := 0,
        both_success := 0, failed := [], up_to_date := 0 } h
    unfold update_all_devices
    rw [hfold]
    simp [main_exit_code]

/-- C10 witness: a one-device fleet whose device is already up to date
ends fully successful with exit status 0. -/
theorem C10_witness :
    (update_all_devices false (fun _ => upToDateEnv) ("v2.9.0".data)
        ["10.0.0.1"]).both_success
      = (update_all_devices false (fun _ => upToDateEnv) ("v2.9.0".data)
        ["10.0.0.1"]).total ∧
    (update_all_devices false (fun _ => upToDateEnv) ("v2.9.0".data) ["10.0.0.1"]).failed
      = [] ∧
    main_exit_code
      (update_all_devices false (fun _ => upToDateEnv) ("v2.9.0".data) ["10.0.0.1"]) = 0 :=
  C10_up_to_date_counted_as_success.2.2.2 (fun _ => upToDateEnv) ("v2.9.0".data)
    ["10.0.0.1"]
    (fun ip _ => by
      show (check_if_update_needed upToDateEnv.query ("v2.9.0".data)).1 = false
      decide)

/-- Helper: a successful leftmost search yields the match at the first
position at which the matcher succeeds. -/
theorem searchFrom_leftmost (m : List Char → Option (List Char)) :
    ∀ (cs : List Char) (v : List Char), searchFrom m cs = some v →
      ∃ i, m (cs.drop i) = some v ∧ ∀ j < i, m (cs.drop j) = none := by
  intro cs
  induction cs with
  | nil => intro v h; cases h
  | cons c rest ih =>
      intro v h
      cases hm : m (c :: rest) with
      | some r =>
          simp only [searchFrom, hm] at h
          exact ⟨0, by simpa [hm] using h, fun j hj => absurd hj (Nat.not_lt_zero j)⟩
      | none =>
          simp only [searchFrom, hm] at h
          obtain ⟨i, h1, h2⟩ := ih v h
          refine ⟨i + 1, h1, fun j hj => ?_⟩
          cases j with
          | zero => exact hm
          | succ k => exact h2 k (Nat.lt_of_succ_lt_succ hj)

/-- Helper: a failed leftmost search means the matcher fails at every
start position, provided the matcher rejects the empty suffix. -/
theorem searchFrom_chars_none (m : List Char → Option (List Char)) (hm0 : m [] = none) :
    ∀ cs : List Char, searchFrom m cs = none → ∀ i, m (cs.drop i) = none := by
  intro cs
  induction cs with
  | nil => intro _ i; simpa using hm0
  | cons c rest ih =>
      intro h i
      cases hm : m (c :: rest) with
      | some r => simp [searchFrom, hm] at h
      | none =>
          simp only [searchFrom, hm] at h
          cases i with
          | zero => exact hm
          | succ k => exact ih h k

/-- Helper: a matcher failing at every start position makes the leftmost
search fail. -/
theorem searchFrom_eq_none_of (m : List Char → Option (List Char)) :
    ∀ cs : List Char, (∀ i, m (cs.drop i) = none) → searchFrom m cs = none := by
  intro cs
  induction cs with
  | nil => intro _; rfl
  | cons c rest ih =>
      intro h
      have h0 : m (c :: rest) = none := h 0
      simp only [searchFrom, h0]
      exact ih (fun i => h (i + 1))

/-- Helper: each of the five version matchers rejects the empty
suffix. -/
theorem version_patterns_nil_none : ∀ m ∈ version_patterns, m [] = none := by
  intro m hm
  simp only [version_patterns, List.mem_cons, List.not_mem_nil, or_false] at hm
  rcases hm with rfl | rfl | rfl | rfl | rfl <;> rfl

/-- C7: extract_version_from_binary tries the five version patterns in
their fixed source order; it returns none exactly when no pattern
matches at any position of the byte string, and whenever it returns a
version that version is the leftmost match of the first pattern in the
order that matches anywhere, every earlier pattern matching nowhere. -/
theorem C7_pattern_priority (data : List Char) :
    (extract_version_from_binary data = none ↔
      ∀ m ∈ version_patterns, ∀ i, m (data.drop i) = none) ∧
    (∀ v : String, extract_version_from_binary data = some v →
      ∃ k : Fin version_patterns.length,
        (∃ i, (version_patterns.get k) (data.drop i) = some v.data ∧
              ∀ j < i, (version_patterns.get k) (data.drop j) = none) ∧
        (∀ j : Fin version_patterns.length, j < k →
              ∀ i, (version_patterns.get j) (data.drop i) = none)) := by
  constructor
  · constructor
    · intro h m hm i
      have hfs : version_patterns.findSome? (fun p => searchFrom p data) = none := by
        cases hh : version_patterns.findSome? (fun p => searchFrom p data) with
        | none => rfl
        | some r => rw [extract_version_from_binary, hh] at h; cases h
      have hsf : searchFrom m data = none := List.findSome?_eq_none_iff.mp hfs m hm
      exact searchFrom_chars_none m (version_patterns_nil_none m hm) data hsf i
    · intro h
      have hall : ∀ m ∈ version_patterns, searchFrom m data = none :=
        fun m hm => searchFrom_eq_none_of m data (h m hm)
      rw [extract_version_from_binary, List.findSome?_eq_none_iff.mpr hall]
      rfl
  · intro v hv
    have hfs : version_patterns.findSome? (fun p => searchFrom p data) = some v.data := by
      cases hh : version_patterns.findSome? (fun p => searchFrom p data) with
      | none => rw [extract_version_from_binary, hh] at hv; cases hv
      | some r =>
          rw [extract_version_from_binary, hh] at hv
          have hr : (⟨r⟩ : String) = v := by simpa using hv
          have hd : v.data = r := by rw [← hr]
          rw [hd]
    have hnone : ∀ m ∈ version_patterns, searchFrom m data = none →
        ∀ i, m (data.drop i) = none :=
      fun m hm h => searchFrom_chars_none m (version_patterns_nil_none m hm) data h
    simp only [version_patterns, List.findSome?] at hfs
    cases h1 : searchFrom matchP1At data with
    | some r =>
        rw [h1] at hfs
        refine ⟨⟨0, by decide⟩, ?_, ?_⟩
        · exact searchFrom_leftmost matchP1At data v.data (by rw [h1, ← hfs])
        · intro j hj i
          exact absurd (Fin.lt_def.mp hj) (Nat.not_lt_zero j.val)
    | none =>
        rw [h1] at hfs
        have hp1 := hnone matchP1At (by simp [version_patterns]) h1
        cases h2 : searchFrom matchP2At data with
        | some r =>
            rw [h2] at hfs
            refine ⟨⟨1, by decide⟩, ?_, ?_⟩
            · exact searchFrom_leftmost matchP2At data v.data (by rw [h2, ← hfs])
            · intro j hj i
              have hjv : j.val < 1 := Fin.lt_def.mp hj
              obtain ⟨jv, hjb⟩ := j
              interval_cases jv
              exact hp1 i
        | none =>
            rw [h2] at hfs
            have hp2 := hnone matchP2At (by simp [version_patterns]) h2
            cases h3 : searchFrom matchP3At data with
            | some r =>
                rw [h3] at hfs
                refine ⟨⟨2, by decide⟩, ?_, ?_⟩
                · exact searchFrom_leftmost matchP3At data v.data (by rw [h3, ← hfs])
                · intro j hj i
                  have hjv : j.val < 2 := Fin.lt_def.mp hj
                  obtain ⟨jv, hjb⟩ := j
                  interval_cases jv
                  · exact hp1 i
                  · exact hp2 i
            | none =>
                rw [h3] at hfs
                have hp3 := hnone matchP3At (by simp [version_patterns]) h3
                cases h4 : searchFrom matchP4At data with
                | some r =>
                    rw [h4] at hfs
                    refine ⟨⟨3, by decide⟩, ?_, ?_⟩
                    · exact searchFrom_leftmost matchP4At data v.data (by rw [h4, ← hfs])
                    · intro j hj i
                      have hjv : j.val < 3 := Fin.lt_def.mp hj
                      obtain ⟨jv, hjb⟩ := j
                      interval_cases jv
                      · exact hp1 i
                      · exact hp2 i
                      · exact hp3 i
                | none =>
                    rw [h4] at hfs
                    have hp4 := hnone matchP4At (by simp [version_patterns]) h4
                    cases h5 : searchFrom matchP5At data with
                    | some r =>
                        rw [h5] at hfs
                        refine ⟨⟨4, by decide⟩, ?_, ?_⟩
                        · exact searchFrom_leftmost matchP5At data v.data
                            (by rw [h5, ← hfs])
                        · intro j hj i
                          have hjv : j.val < 4 := Fin.lt_def.mp hj
                          obtain ⟨jv, hjb⟩ := j
                          interval_cases jv
                          · exact hp1 i
                          · exact hp2 i
                          · exact hp3 i
                          · exact hp4 i
                    | none => rw [h5] at hfs; cases hfs

/-- C7 witness: the spec example byte string yields the version 2.9.0 as
the leftmost match of the first pattern, and every higher-priority
obligation is vacuous. -/
theorem C7_witness :
    ∃ k : Fin version_patterns.length,
      (∃ i, (version_patterns.get k) (("some text v2.9.0 more text".data).drop i)
            = some ("2.9.0".data) ∧
            ∀ j < i, (version_patterns.get k) (("some text v2.9.0 more text".data).drop j)
            = none) ∧
      (∀ j : Fin version_patterns.length, j < k →
            ∀ i, (version_patterns.get j) (("some text v2.9.0 more text".data).drop i)
            = none) :=
  (C7_pattern_priority ("some text v2.9.0 more text".data)).2 "2.9.0" (by decide)

/-- Helper: the digit table produces digit characters. -/
theorem digitChar_isDigit (n : Nat) : (digitChar n).isDigit = true := by
  unfold digitChar
  split <;> decide

/-- Helper: the digit table inverts digit evaluation below ten. -/
theorem digitVal_digitChar (n : Nat) (h : n < 10) : digitVal (digitChar n) = n := by
  interval_cases n <;> decide

/-- Helper: every character of a decimal representation is a digit. -/
theorem natDigits_digits (n : Nat) : ∀ ch ∈ natDigits n, ch.isDigit = true := by
  induction n using Nat.strong_induction_on with
  | _ n ih =>
      intro ch hch
      rw [natDigits] at hch
      split at hch
      · simp only [List.mem_singleton] at hch
        subst hch
        exact digitChar_isDigit n
      · rename_i hn
        simp only [List.mem_append, List.mem_singleton] at hch
        rcases hch with hch | hch
        · exact ih (n / 10) (Nat.div_lt_self (by omega) (by omega)) ch hch
        · subst hch
          exact digitChar_isDigit (n % 10)

/-- Helper: a decimal representation is never empty. -/
theorem natDigits_ne_nil (n : Nat) : natDigits n ≠ [] := by
  rw [natDigits]
  split
  · simp
  · simp

/-- Helper: evaluation of a digit run extended by one digit. -/
theorem runVal_append (xs : List Char) (ch : Char) :
    runVal (xs ++ [ch]) = runVal xs * 10 + digitVal ch := by
  simp [runVal, List.foldl_append]

/-- Helper: evaluating the decimal representation recovers the number
(the roundtrip between Python integer formatting and int parsing). -/
theorem runVal_natDigits (n : Nat) : runVal (natDigits n) = n := by
  induction n using Nat.strong_induction_on with
  | _ n ih =>
      rw [natDigits]
      split
      · rename_i hn
        show runVal ([] ++ [digitChar n]) = n
        rw [runVal_append]
        simp [runVal, digitVal_digitChar n hn]
      · rename_i hn
        rw [runVal_append, ih (n / 10) (Nat.div_lt_self (by omega) (by omega)),
            digitVal_digitChar (n % 10) (Nat.mod_lt n (by omega))]
        omega

/-- Helper: the run scanner consumes a block of digits into its
accumulator. -/
theorem digitRunsAux_digit_block :
    ∀ (ds cs acc : List Char), (∀ ch ∈ ds, ch.isDigit = true) →
      digitRunsAux (ds ++ cs) acc = digitRunsAux cs (ds.reverse ++ acc) := by
  intro ds
  induction ds with
  | nil => intro cs acc _; simp
  | cons d ds ih =>
      intro cs acc h
      have hd : d.isDigit = true := h d (by simp)
      rw [List.cons_append,
          show digitRunsAux (d :: (ds ++ cs)) acc = digitRunsAux (ds ++ cs) (d :: acc) by
            simp [digitRunsAux, hd],
          ih cs (d :: acc) (fun ch hch => h ch (by simp [hch]))]
      simp

/-- Helper: the run scanner closes the current run at a non-digit. -/
theorem digitRunsAux_stop (c : Char) (cs acc : List Char) (hc : c.isDigit = false) :
    digitRunsAux (c :: cs) acc =
      if acc.isEmpty then digitRunsAux cs [] else acc.reverse :: digitRunsAux cs [] := by
  simp [digitRunsAux, hc]

/-- Helper: a nonempty list is not isEmpty. -/
theorem isEmpty_false_of_ne_nil {α : Type} {l : List α} (h : l ≠ []) : l.isEmpty = false := by
  cases l with
  | nil => exact absurd rfl h
  | cons a t => rfl

/-- Helper: a digit-free list yields no digit runs. -/
theorem digitRuns_no_digit (cs : List Char) (h : ∀ ch ∈ cs, ch.isDigit = false) :
    digitRunsAux cs [] = [] := by
  induction cs with
  | nil => rfl
  | cons c rest ih =>
      have hc : c.isDigit = false := h c (by simp)
      rw [digitRunsAux_stop c rest [] hc]
      exact ih (fun ch hch => h ch (by simp [hch]))

/-- Helper: scanning one digit run followed by a dot emits the run. -/
theorem digitRunsAux_run_dot (A cs : List Char)
    (hA : ∀ ch ∈ A, ch.isDigit = true) (hAne : A ≠ []) :
    digitRunsAux (A ++ '.' :: cs) [] = A :: digitRunsAux cs [] := by
  have hrev : A.reverse ≠ [] := by simpa using hAne
  have hemp : ¬ (A.reverse.isEmpty = true) := by
    rw [isEmpty_false_of_ne_nil hrev]
    simp
  rw [digitRunsAux_digit_block A ('.' :: cs) [] hA, List.append_nil,
      digitRunsAux_stop '.' cs A.reverse (by decide), if_neg hemp,
      List.reverse_reverse]

/-- Helper: scanning a trailing digit run emits the run. -/
theorem digitRunsAux_run_end (A : List Char)
    (hA : ∀ ch ∈ A, ch.isDigit = true) (hAne : A ≠ []) :
    digitRunsAux A [] = [A] := by
  have h := digitRunsAux_digit_block A [] [] hA
  rw [List.append_nil] at h
  rw [h]
  simp [digitRunsAux, isEmpty_false_of_ne_nil (show A.reverse ≠ [] by simpa using hAne)]

/-- Helper: a digit character is not Python whitespace. -/
theorem isPySpace_of_isDigit {ch : Char} (h : ch.isDigit = true) : isPySpace ch = false := by
  cases hps : isPySpace ch
  · rfl
  · simp only [isPySpace, Bool.or_eq_true, decide_eq_true_eq] at hps
    rcases hps with ((((hps | hps) | hps) | hps) | hps) | hps <;>
      (subst hps; exact absurd h (by decide))

/-- Helper: dropWhile is the identity when the predicate holds
nowhere. -/
theorem dropWhile_eq_self_of_none {α : Type} (p : α → Bool) (l : List α)
    (h : ∀ x ∈ l, p x = false) : l.dropWhile p = l := by
  cases l with
  | nil => rfl
  | cons a t =>
      rw [List.dropWhile_cons, h a (by simp)]
      simp

/-- Helper: stripping is the identity on a whitespace-free string. -/
theorem pyStrip_eq_self (cs : List Char) (h : ∀ ch ∈ cs, isPySpace ch = false) :
    pyStrip ⟨cs⟩ = ⟨cs⟩ := by
  simp only [pyStrip]
  rw [dropWhile_eq_self_of_none isPySpace cs h,
      dropWhile_eq_self_of_none isPySpace cs.reverse
        (fun x hx => h x (List.mem_reverse.mp hx)),
      List.reverse_reverse]

/-- Helper: the anchored substitution removes a leading v. -/
theorem stripLeadingV_cons_v (rest : List Char) :
    stripLeadingV ⟨'v' :: rest⟩ = ⟨rest⟩ := by
  simp [stripLeadingV]

/-- Helper: the anchored substitution is the identity when the first
character is a digit. -/
theorem stripLeadingV_of_digit (c : Char) (cs : List Char) (h : c.isDigit = true) :
    stripLeadingV ⟨c :: cs⟩ = ⟨c :: cs⟩ := by
  have hne : ¬ c = 'v' := by
    intro heq
    subst heq
    exact absurd h (by decide)
  simp [stripLeadingV, hne]

/-- Helper: the anchored substitution is the identity on a digit-free
head as long as it is not the letter v; stated for any list whose head
is not v. -/
theorem stripLeadingV_of_head_ne (c : Char) (cs : List Char) (h : ¬ c = 'v') :
    stripLeadingV ⟨c :: cs⟩ = ⟨c :: cs⟩ := by
  simp [stripLeadingV, h]

/-- Helper: parse_version applied to a string whose cleaned character
list has known digit runs. -/
theorem parse_version_runs (s : String) (A B C : List Char)
    (h : digitRuns (stripLeadingV (pyStrip s)).data = [A, B, C]) :
    parse_version s = (runVal A, runVal B, runVal C) := by
  simp [parse_version, h]

/-- Helper: stripping the leading v only removes characters. -/
theorem mem_stripLeadingV (s : String) (ch : Char)
    (h : ch ∈ (stripLeadingV s).data) : ch ∈ s.data := by
  cases s with
  | mk cs =>
      cases cs with
      | nil => simpa [stripLeadingV] using h
      | cons c rest =>
          by_cases hv : c = 'v'
          · subst hv
            simp only [stripLeadingV, if_pos rfl] at h
            exact List.mem_cons_of_mem _ h
          · simpa [stripLeadingV, hv] using h

/-- Helper: membership in the cleaned character list implies membership
in the original string. -/
theorem mem_clean_of_mem (s : String) (ch : Char)
    (h : ch ∈ (stripLeadingV (pyStrip s)).data) : ch ∈ s.data := by
  have hstrip : ∀ x, x ∈ (pyStrip s).data → x ∈ s.data := by
    intro x hx
    simp only [pyStrip] at hx
    have hx1 := List.mem_reverse.mp hx
    have hx2 := (List.dropWhile_sublist isPySpace).mem hx1
    have hx3 := List.mem_reverse.mp hx2
    exact (List.dropWhile_sublist isPySpace).mem hx3
  exact hstrip ch (mem_stripLeadingV (pyStrip s) ch h)

/-- C9 part: a string with no digit characters parses to (0,0,0). -/
theorem parse_version_no_digit (s : String) (h : ∀ ch ∈ s.data, ch.isDigit = false) :
    parse_version s = (0, 0, 0) := by
  have hclean : ∀ ch ∈ (stripLeadingV (pyStrip s)).data, ch.isDigit = false :=
    fun ch hch => h ch (mem_clean_of_mem s ch hch)
  have hruns : digitRuns (stripLeadingV (pyStrip s)).data = [] :=
    digitRuns_no_digit _ hclean
  simp [parse_version, digitRuns] at hruns ⊢
  simp [hruns]

/-- Helper: the characters of a dotted decimal triple are digits and
dots, hence never whitespace. -/
theorem verChars_space (a b c : Nat) :
    ∀ ch ∈ (natDigits a ++ '.' :: (natDigits b ++ '.' :: natDigits c)),
      isPySpace ch = false := by
  intro ch hch
  rcases List.mem_append.mp hch with hch | hch
  · exact isPySpace_of_isDigit (natDigits_digits a ch hch)
  · rcases List.mem_cons.mp hch with rfl | hch
    · decide
    · rcases List.mem_append.mp hch with hch | hch
      · exact isPySpace_of_isDigit (natDigits_digits b ch hch)
      · rcases List.mem_cons.mp hch with rfl | hch
        · decide
        · exact isPySpace_of_isDigit (natDigits_digits c ch hch)

/-- Helper: the digit runs of a dotted decimal triple are its three
components. -/
theorem digitRuns_ver_triple (a b c : Nat) :
    digitRuns (natDigits a ++ '.' :: (natDigits b ++ '.' :: natDigits c))
      = [natDigits a, natDigits b, natDigits c] := by
  unfold digitRuns
  rw [digitRunsAux_run_dot (natDigits a) _ (natDigits_digits a) (natDigits_ne_nil a),
      digitRunsAux_run_dot (natDigits b) _ (natDigits_digits b) (natDigits_ne_nil b),
      digitRunsAux_run_end (natDigits c) (natDigits_digits c) (natDigits_ne_nil c)]

/-- Helper: the digit runs of a dotted decimal pair are its two
components. -/
theorem digitRuns_ver_pair (a b : Nat) :
    digitRuns (natDigits a ++ '.' :: natDigits b) = [natDigits a, natDigits b] := by
  unfold digitRuns
  rw [digitRunsAux_run_dot (natDigits a) _ (natDigits_digits a) (natDigits_ne_nil a),
      digitRunsAux_run_end (natDigits b) (natDigits_digits b) (natDigits_ne_nil b)]

/-- Helper: the v-prefixed triple string parses to its components. -/
theorem parse_version_verStringV (a b c : Nat) :
    parse_version (verStringV a b c) = (a, b, c) := by
  have hsp : ∀ ch ∈ ('v' :: (natDigits a ++ '.' :: (natDigits b ++ '.' :: natDigits c))),
      isPySpace ch = false := by
    intro ch hch
    rcases List.mem_cons.mp hch with rfl | hch
    · decide
    · exact verChars_space a b c ch hch
  unfold parse_version verStringV
  rw [pyStrip_eq_self _ hsp, stripLeadingV_cons_v]
  simp [digitRuns_ver_triple a b c, runVal_natDigits]

/-- Helper: the bare triple string parses to its components. -/
theorem parse_version_verStringPlain (a b c : Nat) :
    parse_version (verStringPlain a b c) = (a, b, c) := by
  obtain ⟨d, t, hdt⟩ := List.exists_cons_of_ne_nil (natDigits_ne_nil a)
  have hd : d.isDigit = true := natDigits_digits a d (by rw [hdt]; simp)
  have hstrip : stripLeadingV ⟨natDigits a ++ '.' :: (natDigits b ++ '.' :: natDigits c)⟩
      = ⟨natDigits a ++ '.' :: (natDigits b ++ '.' :: natDigits c)⟩ := by
    rw [hdt, List.cons_append]
    exact stripLeadingV_of_digit d _ hd
  unfold parse_version verStringPlain
  rw [pyStrip_eq_self _ (verChars_space a b c), hstrip]
  simp [digitRuns_ver_triple a b c, runVal_natDigits]

/-- Helper: the dotted pair string parses with a zero patch
component. -/
theorem parse_version_verStringTwo (a b : Nat) :
    parse_version (verStringTwo a b) = (a, b, 0) := by
  obtain ⟨d, t, hdt⟩ := List.exists_cons_of_ne_nil (natDigits_ne_nil a)
  have hd : d.isDigit = true := natDigits_digits a d (by rw [hdt]; simp)
  have hsp : ∀ ch ∈ (natDigits a ++ '.' :: natDigits b), isPySpace ch = false := by
    intro ch hch
    rcases List.mem_append.mp hch with hch | hch
    · exact isPySpace_of_isDigit (natDigits_digits a ch hch)
    · rcases List.mem_cons.mp hch with rfl | hch
      · decide
      · exact isPySpace_of_isDigit (natDigits_digits b ch hch)
  have hstrip : stripLeadingV ⟨natDigits a ++ '.' :: natDigits b⟩
      = ⟨natDigits a ++ '.' :: natDigits b⟩ := by
    rw [hdt, List.cons_append]
    exact stripLeadingV_of_digit d _ hd
  unfold parse_version verStringTwo
  rw [pyStrip_eq_self _ hsp, hstrip]
  simp [digitRuns_ver_pair a b, runVal_natDigits]

/-- C9: parse_version is total by construction in this embedding (the
source try/except around it never fires); a string containing no digit
characters parses to (0,0,0); and for all non-negative integers a, b, c
the v-prefixed and bare dotted decimal triple strings both parse to
exactly (a, b, c), while a dotted pair parses with the missing trailing
component defaulted to 0. -/
theorem C9_parse_version_behaviour (s : String) (a b c : Nat) :
    ((∀ ch ∈ s.data, ch.isDigit = false) → parse_version s = (0, 0, 0)) ∧
    parse_version (verStringV a b c) = (a, b, c) ∧
    parse_version (verStringPlain a b c) = (a, b, c) ∧
    parse_version (verStringTwo a b) = (a, b, 0) :=
  ⟨parse_version_no_digit s, parse_version_verStringV a b c,
   parse_version_verStringPlain a b c, parse_version_verStringTwo a b⟩

/-- C9 witness: the digit-free string unknown parses to (0,0,0), and the
two formats of the triple 2.9.1 parse identically. -/
theorem C9_witness :
    parse_version "unknown" = (0, 0, 0) ∧
    parse_version (verStringV 2 9 1) = (2, 9, 1) ∧
    parse_version (verStringPlain 2 9 1) = (2, 9, 1) :=
  ⟨(C9_parse_version_behaviour "unknown" 2 9 1).1 (by decide),
   (C9_parse_version_behaviour "unknown" 2 9 1).2.1,
   (C9_parse_version_behaviour "unknown" 2 9 1).2.2.1⟩

end Updtrr
